import Mathlib

/-
  Verification development for the internal_chat_mcp adapter core:
  the message filter/match engine, the wait-with-timeout dispatch loop,
  the input normalization / tool-dispatch layer, the response serializer,
  the send-tool mention injection, and the structured-query payload
  construction.  Each definition is a shallow embedding of the
  corresponding Python source under src/internal_chat_mcp/.
-/

namespace InternalChatMcp

/-! ## Python-style string helpers

Characters are compared case-insensitively the way `str.lower()` /
`re.IGNORECASE` behave on ASCII input; `Char.toLower` lower-cases exactly
the ASCII uppercase range, which matches Python on the ASCII identifiers
and messages these tools handle. -/

/-- Case-insensitive prefix stripping over char lists: if `pat` matches the
front of `text` up to ASCII case, return the remaining text. -/
def stripCI : List Char → List Char → Option (List Char)
  | [], text => some text
  | _ :: _, [] => none
  | a :: as, b :: bs => if a.toLower == b.toLower then stripCI as bs else none

/-- Case-sensitive prefix test over char lists. -/
def startsWithChars : List Char → List Char → Bool
  | [], _ => true
  | _ :: _, [] => false
  | a :: as, b :: bs => (a == b) && startsWithChars as bs

/-- Substring search over char lists (Python `in` on already-lowered text). -/
def subSearch (pat : List Char) : List Char → Bool
  | [] => startsWithChars pat []
  | b :: bs => startsWithChars pat (b :: bs) || subSearch pat bs

/-- Lower-cased character list of a string (`s.lower()` on ASCII). -/
def lowerChars (s : String) : List Char := s.toList.map Char.toLower

/-- Case-insensitive substring containment:
Python `pat.lower() in text.lower()`. -/
def containsCI (text pat : String) : Bool := subSearch (lowerChars pat) (lowerChars text)

/-- Python truthiness of an optional string: `None` and the empty string are
falsy, every other string is truthy. -/
def optStrTruthy : Option String → Bool
  | none => false
  | some s => s != ""

/-- Python `a or b` on optional strings: `a` when truthy, else `b`. -/
def pyOrStr (a b : Option String) : Option String := if optStrTruthy a then a else b

/-! ## The mention regex of WaitForMessageTool

`wait_for_message.py` line 83 compiles, in a RAW f-string,
`rf"(?:^|[^\\w])@{user}(?:[^\\w]|$)"` with `re.IGNORECASE`.
Because the string is raw, `\\w` reaches the regex engine as an escaped
backslash followed by the letter `w`, so the bracketed class `[^\\w]`
excludes exactly the backslash character and the letter `w` (and `W`,
since IGNORECASE applies inside classes) — it is NOT the non-word-char
class `\w` would give.  The embedding below reproduces that compiled
pattern exactly; `re.escape` is the identity on the alphanumeric
usernames involved, so the username chars are matched literally
(case-insensitively). -/

/-- A character excluded by the class written `[^\\w]` in a raw string
under IGNORECASE: the backslash, `w` and `W`. -/
def wordClassExcluded (c : Char) : Bool := (c == '\\') || (c.toLower == 'w')

/-- The one-character-or-start left context `(?:^|[^\\w])` of the compiled
mention pattern: start of string, or a character the class accepts. -/
def boundaryOkBefore : Option Char → Bool
  | none => true
  | some c => !wordClassExcluded c

/-- The right context `(?:[^\\w]|$)` of the compiled mention pattern. -/
def boundaryOkAfter : List Char → Bool
  | [] => true
  | c :: _ => !wordClassExcluded c

/-- Search for the compiled mention pattern at every position; `prev` is the
character immediately before the current position (`none` at the start). -/
def mentionAux (pat : List Char) (prev : Option Char) : List Char → Bool
  | [] =>
      (match stripCI pat [] with
       | some rest => boundaryOkBefore prev && boundaryOkAfter rest
       | none => false)
  | c :: rest =>
      (match stripCI pat (c :: rest) with
       | some r => boundaryOkBefore prev && boundaryOkAfter r
       | none => false)
      || mentionAux pat (some c) rest

/-- `mention_pattern.search(msg)` of `wait_for_message.py` for the resolved
mention identity `user`: true iff the compiled pattern matches somewhere. -/
def mentionMatch (user msg : String) : Bool :=
  mentionAux ('@' :: user.toList) none msg.toList

/-! ## WaitForMessageTool (src/internal_chat_mcp/tools/wait_for_message.py) -/

/-- An inbound WebSocket frame after `json.loads`: the fields
`WaitForMessageTool.execute` reads with `msg.get(...)`, each possibly
absent.  `id` and `timestamp` are carried so that their handling by the
loop is observable. -/
structure Frame where
  id : Option Int := none
  user : Option String := none
  message : Option String := none
  timestamp : Option String := none
  channel : Option String := none
  deriving Repr, DecidableEq

/-- The tool's validated input (`WaitForMessageInput`): `from_user` and
`mention_only` optional, `timeout` in seconds (default 30). -/
structure WaitForMessageInput where
  from_user : Option String := none
  mention_only : Option Bool := some false
  timeout : Nat := 30
  deriving Repr, DecidableEq

/-- The tool's output model (`WaitForMessageOutput`). -/
structure WaitForMessageOutput where
  id : Option Int := none
  user : Option String := none
  message : Option String := none
  timestamp : Option String := none
  channel : Option String := none
  status : String
  detail : Option String := none
  deriving Repr, DecidableEq

/-- One outcome of `await asyncio.wait_for(websocket.recv(), timeout)`:
a decoded frame, expiry of the receive timeout, or a transport exception
carrying its text. -/
inductive RecvEvent where
  | msg (f : Frame)
  | timedOut
  | raised (e : String)
  deriving Repr, DecidableEq

/-- Line 74: `from_user = input_data.from_user or os.environ.get("INTERNAL_CHAT_USER")`. -/
def resolveFromUser (inp : WaitForMessageInput) (envUser : Option String) : Option String :=
  pyOrStr inp.from_user envUser

/-- Lines 78-84: the mention pattern is compiled (for the environment user)
iff `mention_only` is truthy and `INTERNAL_CHAT_USER` is truthy. -/
def resolveMentionUser (inp : WaitForMessageInput) (envUser : Option String) : Option String :=
  if inp.mention_only == some true && optStrTruthy envUser then envUser else none

/-- Lines 98-119: the per-message filter of the dispatch loop — skip unless
the `from_user` filter (when truthy) matches exactly and the mention
pattern (when compiled) finds a match in `msg.get("message", "")`. -/
def accept (fromUser mentionUser : Option String) (f : Frame) : Bool :=
  (if optStrTruthy fromUser then f.user == fromUser else true)
  && (match mentionUser with
      | some mu => mentionMatch mu (f.message.getD "")
      | none => true)

/-- Lines 131-134: the timeout result. -/
def timeoutOutput : WaitForMessageOutput :=
  { status := "timeout", detail := some "No matching message received in time." }

/-- Lines 136-139: the structured error result built from the exception text. -/
def errorOutput (e : String) : WaitForMessageOutput :=
  { status := "error", detail := some e }

/-- Lines 122-129: the success output; `id` and `timestamp` are hard-coded
to `None`, only `user`, `message` and `channel` are copied from the frame. -/
def successOutput (f : Frame) : WaitForMessageOutput :=
  { id := none, user := f.user, message := f.message, timestamp := none,
    channel := f.channel, status := "success" }

/-- Lines 91-135: the listening loop over the schedule of receive outcomes.
Besides the result (none while no outcome has been produced) it records the
timeout value passed to each `asyncio.wait_for` call, in order. -/
def runLoop (fromUser mentionUser : Option String) (timeout : Nat) :
    List RecvEvent → Option WaitForMessageOutput × List Nat
  | [] => (none, [])
  | RecvEvent.timedOut :: _ => (some timeoutOutput, [timeout])
  | RecvEvent.raised e :: _ => (some (errorOutput e), [timeout])
  | RecvEvent.msg f :: rest =>
      if accept fromUser mentionUser f then (some (successOutput f), [timeout])
      else
        let r := runLoop fromUser mentionUser timeout rest
        (r.1, timeout :: r.2)

/-- Lines 70-139: `WaitForMessageTool.execute` with the environment user as
an explicit parameter and the connection attempt reified: a failed
`websockets.connect` (or any exception before listening) is `Except.error`
with the exception text, a successful connection carries the schedule of
receive outcomes. -/
def executeWait (inp : WaitForMessageInput) (envUser : Option String)
    (conn : Except String (List RecvEvent)) :
    Option WaitForMessageOutput × List Nat :=
  match conn with
  | Except.error e => (some (errorOutput e), [])
  | Except.ok events =>
      runLoop (resolveFromUser inp envUser) (resolveMentionUser inp envUser)
        inp.timeout events

/-! ## SendMessageTool (src/internal_chat_mcp/tools/send_message.py) -/

namespace SendMessageTool

/-- Lines 44-47: `reply_to_user` is read from the validated input
(`Optional[str]`); `None` and the literal string `"null"` are normalized
to the empty string, i.e. treated as not set. -/
def normalizeReplyTo (replyToUser : Option String) : String :=
  match replyToUser with
  | none => ""
  | some s => if s == "null" then "" else s

/-- Lines 57-60: when the normalized reply hint is truthy, prefix the
mention token `@hint` followed by a space unless the token already occurs
in the message case-insensitively; the result is the outgoing body. -/
def outgoingMessage (message : String) (replyToUser : Option String) : String :=
  let r := normalizeReplyTo replyToUser
  if r != "" then
    let mention := "@" ++ r
    if !containsCI message mention then mention ++ " " ++ message else message
  else message

end SendMessageTool

/-! ## JSON-like values and Python dict operations

Argument maps handed to `ToolService.execute_tool` are Python dicts of
JSON-decoded values; they are modelled as insertion-ordered association
lists with string keys. -/

/-- A JSON-decoded Python value. -/
inductive JVal where
  | null
  | bool (b : Bool)
  | int (n : Int)
  | str (s : String)
  | arr (xs : List JVal)
  | obj (kvs : List (String × JVal))
  deriving Repr

/-- Python truthiness of a JSON-decoded value. -/
def pyTruthy : JVal → Bool
  | JVal.null => false
  | JVal.bool b => b
  | JVal.int n => n != 0
  | JVal.str s => s != ""
  | JVal.arr xs => !xs.isEmpty
  | JVal.obj kvs => !kvs.isEmpty

/-- Python `d.get(k)` on an insertion-ordered dict. -/
def dictGet {α : Type} (k : String) : List (String × α) → Option α
  | [] => none
  | (k2, v) :: rest => if k2 = k then some v else dictGet k rest

/-- Python `k in d`. -/
def dictHas {α : Type} (k : String) (d : List (String × α)) : Bool :=
  (dictGet k d).isSome

/-- Python `d[k] = v`: overwrite in place, or append a new key at the end. -/
def dictSet {α : Type} (k : String) (v : α) : List (String × α) → List (String × α)
  | [] => [(k, v)]
  | (k2, v2) :: rest =>
      if k2 = k then (k2, v) :: rest else (k2, v2) :: dictSet k v rest

/-- Python `d.pop(k, None)`: remove the key (keys are unique in a dict, so
removing every occurrence agrees). -/
def dictPop {α : Type} (k : String) : List (String × α) → List (String × α)
  | [] => []
  | (k2, v) :: rest =>
      if k2 = k then dictPop k rest else (k2, v) :: dictPop k rest

/-! ## ToolService (src/internal_chat_mcp/services/tool_service.py) -/

namespace ToolService

/-- Lines 56-59: strict parameter filtering — keep exactly the input keys
whose name appears in the schema's declared property set. -/
def filterAllowed (allowed : List String) (input : List (String × JVal)) :
    List (String × JVal) :=
  input.filter (fun kv => allowed.contains kv.1)

/-- Lines 71-83: the legacy relocation of a top-level `from_user` into
`filters.user`, applied only when the tool is `GetUnreadMessages` and the
RAW argument map carries `from_user`.  The value is written into the
(possibly freshly created) `filters` dict unconditionally, then the
top-level key is removed from the filtered map.  (When `filters` is a
truthy non-dict value the Python code would fall to a `hasattr` branch
that only fires for attribute-bearing objects, which JSON-decoded
argument maps never contain; the map is then left unchanged apart from
the `pop`.) -/
def relocateFromUser (toolName : String) (inputData filtered : List (String × JVal)) :
    List (String × JVal) :=
  if toolName = "GetUnreadMessages" ∧ dictHas "from_user" inputData then
    let v := (dictGet "from_user" inputData).getD JVal.null
    let filters0 := (dictGet "filters" filtered).getD JVal.null
    let filters1 := if pyTruthy filters0 then filters0 else JVal.obj []
    let filtered1 :=
      match filters1 with
      | JVal.obj kvs => dictSet "filters" (JVal.obj (dictSet "user" v kvs)) filtered
      | _ => filtered
    dictPop "from_user" filtered1
  else filtered

/-! ### Response serialization

`ToolContent` and `ToolResponse` are declared in
`internal_chat_mcp/interfaces/tool.py`, which is not part of the sources
at hand; their shape is fixed by the spec's data model (an ordered
sequence of content items, each either `text` or structured `json_data`)
and by the field accesses `_process_tool_content` performs. -/

end ToolService

/-- Modelled from the spec: `ToolContent` of the missing
`internal_chat_mcp/interfaces/tool.py` — one content item with a `type`
tag (`"text"` or `"json"`), an optional `text` payload and an optional
structured `json_data` payload, exactly the fields
`ToolService._process_tool_content` reads. -/
structure ToolContent where
  typ : String
  text : Option String := none
  json_data : Option JVal := none
  deriving Repr

/-- Modelled from the spec: `ToolResponse` of the missing
`internal_chat_mcp/interfaces/tool.py` — an ordered sequence of content
items. -/
structure ToolResponse where
  content : List ToolContent
  deriving Repr

namespace ToolService

/-- Lines 116-131: `_process_tool_content` — a `text` item yields its text
(possibly `None`); a `json` item with a payload yields the payload;
otherwise the Python `or`-chain `content.text or content.json_data or {}`
applies by truthiness. -/
def processToolContent (c : ToolContent) : JVal :=
  if c.typ = "text" then
    match c.text with
    | some s => JVal.str s
    | none => JVal.null
  else if c.typ = "json" ∧ c.json_data.isSome then
    c.json_data.getD JVal.null
  else
    if optStrTruthy c.text then JVal.str (c.text.getD "")
    else
      match c.json_data with
      | some j => if pyTruthy j then j else JVal.obj []
      | none => JVal.obj []

/-- Lines 133-152: `_serialize_response` — empty content becomes the empty
object, a single item is processed and returned unwrapped, several items
become the ordered list of their processed values. -/
def serializeResponse (r : ToolResponse) : JVal :=
  match r.content with
  | [] => JVal.obj []
  | [c] => processToolContent c
  | cs => JVal.arr (cs.map processToolContent)

end ToolService

/-! ## GetUnreadMessagesTool (src/internal_chat_mcp/tools/get_unread_messages.py) -/

namespace GetUnreadMessagesTool

/-- The `MessageFilter` model (lines 9-36) with its declared defaults. -/
structure MessageFilter where
  user : Option String := none
  channels : Option (List String) := none
  dm_only : Option Bool := none
  mention_only : Option Bool := none
  content_regex : Option String := none
  from_user : Option String := none
  before : Option String := none
  after : Option String := none
  sort : Option String := some "asc"
  limit : Option Int := some 20
  deriving Repr, DecidableEq

/-- Lines 143-144 of `execute`: on the structured-query path, when the
filter's `user` is falsy (`None` or empty) it is overwritten with the
environment calling-user identity before the payload is built. -/
def resolveQueryFilters (f : MessageFilter) (envUser : String) : MessageFilter :=
  if optStrTruthy f.user then f else { f with user := some envUser }

/-- JSON encoding helpers for `model_dump`. -/
def optStrJ : Option String → JVal
  | none => JVal.null
  | some s => JVal.str s

/-- JSON encoding of an optional bool field. -/
def optBoolJ : Option Bool → JVal
  | none => JVal.null
  | some b => JVal.bool b

/-- JSON encoding of an optional int field. -/
def optIntJ : Option Int → JVal
  | none => JVal.null
  | some n => JVal.int n

/-- JSON encoding of an optional string-list field. -/
def optStrsJ : Option (List String) → JVal
  | none => JVal.null
  | some xs => JVal.arr (xs.map JVal.str)

/-- Line 147: `payload = filters_obj.model_dump()` after the user
resolution — the full filter body POSTed to `/messages/query`, all
declared fields in declaration order. -/
def queryPayload (f : MessageFilter) (envUser : String) : List (String × JVal) :=
  let g := resolveQueryFilters f envUser
  [("user", optStrJ g.user), ("channels", optStrsJ g.channels),
   ("dm_only", optBoolJ g.dm_only), ("mention_only", optBoolJ g.mention_only),
   ("content_regex", optStrJ g.content_regex), ("from_user", optStrJ g.from_user),
   ("before", optStrJ g.before), ("after", optStrJ g.after),
   ("sort", optStrJ g.sort), ("limit", optIntJ g.limit)]

end GetUnreadMessagesTool

/-! ## Concrete data used by witnesses and counterexamples -/

/-- A frame from user carol, not matching the sample filter. -/
def frameCarol : Frame := { user := some "carol", message := some "one" }

/-- A frame from user dave, not matching the sample filter. -/
def frameDave : Frame := { user := some "dave", message := some "two" }

/-- A frame from user erin, not matching the sample filter. -/
def frameErin : Frame := { user := some "erin", message := some "three" }

/-- A frame from user alice, matching the sample filter. -/
def frameAlice : Frame := { user := some "alice", message := some "hello" }

/-- The frame exhibiting the mention-boundary defect. -/
def frameBobby : Frame := { user := some "bob", message := some "@bobby hi" }

/-- A frame whose backend echo carries `id` and `timestamp` values. -/
def frameWithMeta : Frame :=
  { id := some 9, user := some "alice", message := some "m",
    timestamp := some "2024-01-01T00:00:00", channel := some "general" }

/-- A sample wait input filtering on user alice with a 7 second timeout. -/
def waitInputSample : WaitForMessageInput :=
  { from_user := some "alice", mention_only := some false, timeout := 7 }

/-- The declared property set of `GetUnreadMessagesInput`. -/
def c3Allowed : List String :=
  ["filters", "since_message_id", "limit", "mention_only", "dm_only", "content_regex"]

/-- A raw argument map carrying a top-level `from_user` together with a
nested `filters` object that already sets `user`. -/
def c3InputData : List (String × JVal) :=
  [("from_user", JVal.str "alice"), ("filters", JVal.obj [("user", JVal.str "bob")])]

end InternalChatMcp

namespace InternalChatMcp

/-! ## Helper lemmas -/

/-- Lowering distributes over string append. -/
lemma lowerChars_append (s t : String) :
    lowerChars (s ++ t) = lowerChars s ++ lowerChars t := by
  simp [lowerChars, String.toList]

/-- A char list begins with itself. -/
lemma startsWithChars_self_append (p r : List Char) :
    startsWithChars p (p ++ r) = true := by
  induction p with
  | nil => rfl
  | cons a as ih => simp [startsWithChars, ih]

/-- A prefix occurrence is found by the substring search. -/
lemma subSearch_of_startsWith (p t : List Char) (h : startsWithChars p t = true) :
    subSearch p t = true := by
  cases t with
  | nil => simpa [subSearch] using h
  | cons b bs => simp [subSearch, h]

/-- A string case-insensitively contains any of its own prefixes. -/
lemma containsCI_left (r t : String) : containsCI (r ++ t) r = true := by
  unfold containsCI
  apply subSearch_of_startsWith
  rw [lowerChars_append]
  exact startsWithChars_self_append _ _

/-- Skipped (non-matching) frames do not change the loop's result; each one
consumes one receive attempt at the configured timeout. -/
lemma runLoop_skip (fu mu : Option String) (t : Nat) (skipped : List Frame)
    (rest : List RecvEvent) (h : ∀ g ∈ skipped, accept fu mu g = false) :
    runLoop fu mu t (skipped.map RecvEvent.msg ++ rest)
      = ((runLoop fu mu t rest).1,
         List.replicate skipped.length t ++ (runLoop fu mu t rest).2) := by
  induction skipped with
  | nil => simp
  | cons g gs ih =>
    have hg : accept fu mu g = false := h g (List.mem_cons_self g gs)
    have hgs : ∀ x ∈ gs, accept fu mu x = false :=
      fun x hx => h x (List.mem_cons_of_mem g hx)
    simp [runLoop, hg, ih hgs, List.replicate_succ]

/-- Every receive attempt recorded by the loop used the same value. -/
lemma runLoop_trace (fu mu : Option String) (t : Nat) (events : List RecvEvent) :
    (runLoop fu mu t events).2
      = List.replicate (runLoop fu mu t events).2.length t := by
  induction events with
  | nil => rfl
  | cons e rest ih =>
    cases e with
    | msg f =>
      cases hacc : accept fu mu f with
      | true => simp [runLoop, hacc]
      | false => simpa [runLoop, hacc, List.replicate_succ] using ih
    | timedOut => rfl
    | raised e2 => rfl

/-- Reading a key just written returns the written value. -/
lemma dictGet_set_same {α : Type} (k : String) (v : α) (d : List (String × α)) :
    dictGet k (dictSet k v d) = some v := by
  induction d with
  | nil => simp [dictGet, dictSet]
  | cons kv rest ih =>
    obtain ⟨k2, v2⟩ := kv
    by_cases h : k2 = k
    · simp [dictGet, dictSet, h]
    · simp [dictGet, dictSet, h, ih]

/-- A popped key is gone. -/
lemma dictGet_pop_same {α : Type} (k : String) (d : List (String × α)) :
    dictGet k (dictPop k d) = none := by
  induction d with
  | nil => rfl
  | cons kv rest ih =>
    obtain ⟨k2, v⟩ := kv
    by_cases h : k2 = k
    · simpa [dictPop, h] using ih
    · simp [dictPop, dictGet, h, ih]

/-- Popping one key leaves the others readable. -/
lemma dictGet_pop_ne {α : Type} (k k2 : String) (h : k ≠ k2) (d : List (String × α)) :
    dictGet k (dictPop k2 d) = dictGet k d := by
  induction d with
  | nil => rfl
  | cons kv rest ih =>
    obtain ⟨k3, v⟩ := kv
    by_cases h3 : k3 = k2
    · subst h3
      simp [dictPop, dictGet, ih, Ne.symm h]
    · simp [dictPop, dictGet, h3, ih]

end InternalChatMcp

namespace InternalChatMcp

/-! ## Claim theorems -/

/-- C1 (code defect): the compiled mention pattern of
`WaitForMessageTool.execute` — written `[^\\w]` inside a RAW f-string —
treats any character other than a backslash, `w` or `W` as a token
boundary, so the message `"@bobby hi"` IS accepted by the mention filter
for the resolved identity `"bob"` (the trailing `b` counts as a
boundary), contradicting the claimed whole-token rule; the claim's
positive examples `"@bob hi"` and `"hi @Bob"` do match, and the full
dispatch loop returns the `"@bobby hi"` frame as a success. -/
theorem mention_filter_accepts_at_bobby :
    mentionMatch "bob" "@bobby hi" = true
    ∧ mentionMatch "bob" "@bob hi" = true
    ∧ mentionMatch "bob" "hi @Bob" = true
    ∧ (runLoop (some "bob") (some "bob") 30 [RecvEvent.msg frameBobby]).1
        = some (successOutput frameBobby) := by
  refine ⟨by decide, by decide, by decide, by decide⟩

/-- C2: the loop's match predicate is the conjunction of exactly the set
filter dimensions (`from_user` when truthy, the mention pattern when
compiled); with both absent every frame matches; the dispatch loop skips
each non-matching frame and returns the first matching one as a success
result, and a receive timeout with no match yields the timeout result;
`execute` runs the loop on the resolved filters with the configured
timeout. -/
theorem wait_filter_conjunction_and_dispatch :
    (∀ (fu mu : Option String) (f : Frame),
        accept fu mu f = true ↔
          ((optStrTruthy fu = true → f.user = fu)
            ∧ ∀ m, mu = some m → mentionMatch m (f.message.getD "") = true))
    ∧ (∀ f : Frame, accept none none f = true)
    ∧ (∀ (fu mu : Option String) (t : Nat) (skipped : List Frame) (f : Frame)
          (rest : List RecvEvent),
        (∀ g ∈ skipped, accept fu mu g = false) → accept fu mu f = true →
        (runLoop fu mu t (skipped.map RecvEvent.msg ++ RecvEvent.msg f :: rest)).1
          = some (successOutput f))
    ∧ (∀ (fu mu : Option String) (t : Nat) (skipped : List Frame),
        (∀ g ∈ skipped, accept fu mu g = false) →
        (runLoop fu mu t (skipped.map RecvEvent.msg ++ [RecvEvent.timedOut])).1
          = some timeoutOutput)
    ∧ (∀ (inp : WaitForMessageInput) (envUser : Option String) (events : List RecvEvent),
        executeWait inp envUser (Except.ok events)
          = runLoop (resolveFromUser inp envUser) (resolveMentionUser inp envUser)
              inp.timeout events)
    ∧ timeoutOutput.status = "timeout"
    ∧ (∀ f : Frame, (successOutput f).status = "success") := by
  refine ⟨?_, ?_, ?_, ?_, ?_, rfl, fun f => rfl⟩
  · intro fu mu f
    cases mu with
    | none => cases hfu : optStrTruthy fu <;> simp [accept, hfu, beq_iff_eq]
    | some m => cases hfu : optStrTruthy fu <;> simp [accept, hfu, beq_iff_eq]
  · intro f
    rfl
  · intro fu mu t skipped f rest hskip hacc
    rw [runLoop_skip fu mu t skipped (RecvEvent.msg f :: rest) hskip]
    simp [runLoop, hacc]
  · intro fu mu t skipped hskip
    rw [runLoop_skip fu mu t skipped [RecvEvent.timedOut] hskip]
    rfl
  · intro inp envUser events
    rfl

/-- Witness for C2: with the filter resolved to user alice and no mention
pattern, a schedule of 3 non-matching frames followed by a matching one
returns the 4th frame as a success result. -/
theorem wait_filter_conjunction_and_dispatch_app :
    (runLoop (some "alice") none 5
        ([frameCarol, frameDave, frameErin].map RecvEvent.msg
          ++ RecvEvent.msg frameAlice :: [])).1
      = some (successOutput frameAlice) :=
  wait_filter_conjunction_and_dispatch.2.2.1 (some "alice") none 5
    [frameCarol, frameDave, frameErin] frameAlice [] (by decide) (by decide)

/-- C5: every outcome of `WaitForMessageTool.execute` is a structured
result — a failed connection or a transport exception while listening
yields the error result carrying the exception text as detail, a receive
timeout after only non-matching frames yields the timeout result, and the
`error`, `timeout` and `success` statuses are pairwise distinct. -/
theorem wait_structured_outcomes :
    (∀ (inp : WaitForMessageInput) (envUser : Option String) (e : String),
        (executeWait inp envUser (Except.error e)).1 = some (errorOutput e))
    ∧ (∀ (inp : WaitForMessageInput) (envUser : Option String)
          (skipped : List Frame) (s : String),
        (∀ g ∈ skipped,
            accept (resolveFromUser inp envUser) (resolveMentionUser inp envUser) g
              = false) →
        (executeWait inp envUser
            (Except.ok (skipped.map RecvEvent.msg ++ [RecvEvent.raised s]))).1
          = some (errorOutput s))
    ∧ (∀ (inp : WaitForMessageInput) (envUser : Option String) (skipped : List Frame),
        (∀ g ∈ skipped,
            accept (resolveFromUser inp envUser) (resolveMentionUser inp envUser) g
              = false) →
        (executeWait inp envUser
            (Except.ok (skipped.map RecvEvent.msg ++ [RecvEvent.timedOut]))).1
          = some timeoutOutput)
    ∧ (∀ e : String, (errorOutput e).status = "error" ∧ (errorOutput e).detail = some e)
    ∧ (timeoutOutput.status = "timeout"
        ∧ timeoutOutput.detail = some "No matching message received in time.")
    ∧ (∀ (e : String) (f : Frame),
        (errorOutput e).status ≠ timeoutOutput.status
        ∧ (errorOutput e).status ≠ (successOutput f).status
        ∧ timeoutOutput.status ≠ (successOutput f).status) := by
  refine ⟨fun inp envUser e => rfl, ?_, ?_, fun e => ⟨rfl, rfl⟩, ⟨rfl, rfl⟩,
    fun e f =>
      ⟨show ("error" : String) ≠ "timeout" by decide,
       show ("error" : String) ≠ "success" by decide,
       show ("timeout" : String) ≠ "success" by decide⟩⟩
  · intro inp envUser skipped s hskip
    show (runLoop (resolveFromUser inp envUser) (resolveMentionUser inp envUser)
        inp.timeout (skipped.map RecvEvent.msg ++ [RecvEvent.raised s])).1
      = some (errorOutput s)
    rw [runLoop_skip _ _ _ _ _ hskip]
    rfl
  · intro inp envUser skipped hskip
    show (runLoop (resolveFromUser inp envUser) (resolveMentionUser inp envUser)
        inp.timeout (skipped.map RecvEvent.msg ++ [RecvEvent.timedOut])).1
      = some timeoutOutput
    rw [runLoop_skip _ _ _ _ _ hskip]
    rfl

/-- Witness for C5: a non-matching frame followed by a transport exception
yields the structured error result with the exception text. -/
theorem wait_structured_outcomes_app :
    (executeWait waitInputSample none
        (Except.ok ([frameCarol].map RecvEvent.msg ++ [RecvEvent.raised "boom"]))).1
      = some (errorOutput "boom") :=
  wait_structured_outcomes.2.1 waitInputSample none [frameCarol] "boom" (by decide)

/-- C6: the timeout handed to every receive attempt of an execution is the
caller-supplied configured timeout, unchanged across iterations — the
recorded trace of per-attempt timeouts is constantly `inp.timeout`. -/
theorem wait_per_attempt_timeout :
    ∀ (inp : WaitForMessageInput) (envUser : Option String) (events : List RecvEvent),
      (executeWait inp envUser (Except.ok events)).2
        = List.replicate (executeWait inp envUser (Except.ok events)).2.length
            inp.timeout := by
  intro inp envUser events
  exact runLoop_trace _ _ _ events

/-- C10: whatever `id` and `timestamp` the accepted frame carried, the
success output pins them to `none` and copies exactly `user`, `message`
and `channel` from the frame. -/
theorem wait_output_drops_id_timestamp :
    ∀ (fu mu : Option String) (t : Nat) (f : Frame) (rest : List RecvEvent),
      accept fu mu f = true →
      (runLoop fu mu t (RecvEvent.msg f :: rest)).1
        = some { id := none, user := f.user, message := f.message, timestamp := none,
                 channel := f.channel, status := "success", detail := none } := by
  intro fu mu t f rest hacc
  simp [runLoop, hacc, successOutput]

/-- Witness for C10: a frame carrying both an id and a timestamp is
returned with `id = none` and `timestamp = none`. -/
theorem wait_output_drops_id_timestamp_app :
    (runLoop (some "alice") none 3 [RecvEvent.msg frameWithMeta]).1
      = some { id := none, user := some "alice", message := some "m", timestamp := none,
               channel := some "general", status := "success", detail := none } :=
  wait_output_drops_id_timestamp (some "alice") none 3 frameWithMeta [] (by decide)

end InternalChatMcp

namespace InternalChatMcp

/-- C3 counterexample: with a top-level `from_user = "alice"` and a nested
`filters` object that already sets `user = "bob"`, the normalizer
OVERWRITES the nested user with `"alice"` — the claim's guard (leave an
already-set nested user unchanged) does not exist in the code. -/
theorem relocate_from_user_overwrite_cex :
    ToolService.relocateFromUser "GetUnreadMessages" c3InputData
        (ToolService.filterAllowed c3Allowed c3InputData)
      = [("filters", JVal.obj [("user", JVal.str "alice")])]
    ∧ ("alice" : String) ≠ "bob" := by
  exact ⟨rfl, by decide⟩

/-- C3 amended: for the `GetUnreadMessages` tool, a top-level `from_user`
value is written into the nested `filters` object's `user` key
UNCONDITIONALLY (overwriting any already-set nested user; a missing
`filters` object is created), and the top-level `from_user` key is removed;
any other tool's argument map is left unchanged. -/
theorem relocate_from_user_unconditional :
    (∀ (inputData filtered : List (String × JVal)) (v : JVal)
        (kvs : List (String × JVal)),
        dictGet "from_user" inputData = some v →
        dictGet "filters" filtered = some (JVal.obj kvs) →
        dictGet "filters"
            (ToolService.relocateFromUser "GetUnreadMessages" inputData filtered)
          = some (JVal.obj (dictSet "user" v kvs))
        ∧ dictGet "from_user"
            (ToolService.relocateFromUser "GetUnreadMessages" inputData filtered)
          = none)
    ∧ (∀ (inputData filtered : List (String × JVal)) (v : JVal),
        dictGet "from_user" inputData = some v →
        dictGet "filters" filtered = none →
        dictGet "filters"
            (ToolService.relocateFromUser "GetUnreadMessages" inputData filtered)
          = some (JVal.obj [("user", v)])
        ∧ dictGet "from_user"
            (ToolService.relocateFromUser "GetUnreadMessages" inputData filtered)
          = none)
    ∧ (∀ (v : JVal) (kvs : List (String × JVal)),
        dictGet "user" (dictSet "user" v kvs) = some v)
    ∧ (∀ (toolName : String) (inputData filtered : List (String × JVal)),
        toolName ≠ "GetUnreadMessages" →
        ToolService.relocateFromUser toolName inputData filtered = filtered) := by
  refine ⟨?_, ?_, fun v kvs => dictGet_set_same _ _ _, ?_⟩
  · intro inputData filtered v kvs hfu hfil
    have hcond : "GetUnreadMessages" = "GetUnreadMessages"
        ∧ dictHas "from_user" inputData := ⟨rfl, by simp [dictHas, hfu]⟩
    have h1 : (if pyTruthy (JVal.obj kvs) then JVal.obj kvs else JVal.obj [])
        = JVal.obj kvs := by
      cases kvs <;> simp [pyTruthy]
    unfold ToolService.relocateFromUser
    rw [if_pos hcond]
    simp only [hfu, hfil, Option.getD_some, h1]
    constructor
    · show dictGet "filters"
          (dictPop "from_user"
            (dictSet "filters" (JVal.obj (dictSet "user" v kvs)) filtered))
        = some (JVal.obj (dictSet "user" v kvs))
      rw [dictGet_pop_ne "filters" "from_user" (by decide)]
      exact dictGet_set_same _ _ _
    · show dictGet "from_user"
          (dictPop "from_user"
            (dictSet "filters" (JVal.obj (dictSet "user" v kvs)) filtered))
        = none
      exact dictGet_pop_same _ _
  · intro inputData filtered v hfu hfil
    have hcond : "GetUnreadMessages" = "GetUnreadMessages"
        ∧ dictHas "from_user" inputData := ⟨rfl, by simp [dictHas, hfu]⟩
    unfold ToolService.relocateFromUser
    rw [if_pos hcond]
    simp only [hfu, hfil, Option.getD_some, Option.getD_none]
    constructor
    · show dictGet "filters"
          (dictPop "from_user"
            (dictSet "filters" (JVal.obj (dictSet "user" v [])) filtered))
        = some (JVal.obj [("user", v)])
      rw [dictGet_pop_ne "filters" "from_user" (by decide)]
      exact dictGet_set_same _ _ _
    · show dictGet "from_user"
          (dictPop "from_user"
            (dictSet "filters" (JVal.obj (dictSet "user" v [])) filtered))
        = none
      exact dictGet_pop_same _ _
  · intro toolName inputData filtered h
    unfold ToolService.relocateFromUser
    rw [if_neg (fun hc => h hc.1)]

/-- Witness for C3: the amended relocation applied to the concrete argument
map — the nested user becomes `"alice"` and `from_user` is gone. -/
theorem relocate_from_user_unconditional_app :
    dictGet "filters"
        (ToolService.relocateFromUser "GetUnreadMessages" c3InputData
          (ToolService.filterAllowed c3Allowed c3InputData))
      = some (JVal.obj [("user", JVal.str "alice")])
    ∧ dictGet "from_user"
        (ToolService.relocateFromUser "GetUnreadMessages" c3InputData
          (ToolService.filterAllowed c3Allowed c3InputData))
      = none :=
  relocate_from_user_unconditional.1 c3InputData
    (ToolService.filterAllowed c3Allowed c3InputData) (JVal.str "alice")
    [("user", JVal.str "bob")] rfl rfl

/-- C4: the serializer returns the empty object for empty content, the
single item's own processed value (its text for a `text` item, its
structured payload for a `json` item) unwrapped for one item, and the
ordered list of processed values for two or more items. -/
theorem serialize_response_cases :
    ToolService.serializeResponse { content := [] } = JVal.obj []
    ∧ (∀ c : ToolContent,
        ToolService.serializeResponse { content := [c] }
          = ToolService.processToolContent c)
    ∧ (∀ (c1 c2 : ToolContent) (cs : List ToolContent),
        ToolService.serializeResponse { content := c1 :: c2 :: cs }
          = JVal.arr ((c1 :: c2 :: cs).map ToolService.processToolContent))
    ∧ (∀ (s : String) (j : Option JVal),
        ToolService.processToolContent { typ := "text", text := some s, json_data := j }
          = JVal.str s)
    ∧ (∀ (t : Option String) (j : JVal),
        ToolService.processToolContent { typ := "json", text := t, json_data := some j }
          = j) := by
  exact ⟨rfl, fun c => rfl, fun c1 c2 cs => rfl, fun s j => rfl, fun t j => rfl⟩

/-- C7: strict parameter filtering keeps a key iff it occurs in the input
and is declared in the schema's property set; on the spec's example the
normalized keys are exactly `a` and `b`. -/
theorem normalizer_allow_list_keys :
    (∀ (allowed : List String) (input : List (String × JVal)) (k : String),
        k ∈ (ToolService.filterAllowed allowed input).map Prod.fst
          ↔ k ∈ input.map Prod.fst ∧ k ∈ allowed)
    ∧ (ToolService.filterAllowed ["a", "b"]
          [("a", JVal.int 1), ("b", JVal.int 2), ("c", JVal.int 3)]).map Prod.fst
        = ["a", "b"] := by
  constructor
  · intro allowed input k
    simp only [ToolService.filterAllowed]
    constructor
    · intro h
      rcases List.mem_map.mp h with ⟨kv, hkv, hk⟩
      rcases List.mem_filter.mp hkv with ⟨hmem, hcontains⟩
      subst hk
      exact ⟨List.mem_map.mpr ⟨kv, hmem, rfl⟩, by simpa using hcontains⟩
    · intro h
      rcases h with ⟨hin, hall⟩
      rcases List.mem_map.mp hin with ⟨kv, hmem, hk⟩
      subst hk
      exact List.mem_map.mpr
        ⟨kv, List.mem_filter.mpr ⟨hmem, by simpa using hall⟩, rfl⟩
  · rfl

end InternalChatMcp

namespace InternalChatMcp

/-- C8 counterexample: the literal reply hint `"null"` is non-empty, the
body `"hi"` does not contain the token `"@null"`, yet no prefix is added —
the code deliberately treats the string `"null"` as an unset hint, so the
claimed iff fails for it. -/
theorem send_null_hint_cex :
    SendMessageTool.outgoingMessage "hi" (some "null") = "hi"
    ∧ containsCI "hi" ("@" ++ "null") = false
    ∧ ("hi" : String) ≠ ("@" ++ "null") ++ " " ++ "hi" := by
  exact ⟨rfl, by decide, by decide⟩

/-- C8 amended: for every non-empty reply hint other than the literal
string `"null"` (which the tool treats as unset), the outgoing body is the
original message prefixed with the mention token and a space iff the token
is not already contained case-insensitively, and the injection is
idempotent. -/
theorem send_mention_injection_iff :
    ∀ (msg u : String), u ≠ "" → u ≠ "null" →
      (SendMessageTool.outgoingMessage msg (some u)
          = if containsCI msg ("@" ++ u) then msg else ("@" ++ u) ++ " " ++ msg)
      ∧ SendMessageTool.outgoingMessage (SendMessageTool.outgoingMessage msg (some u))
            (some u)
          = SendMessageTool.outgoingMessage msg (some u) := by
  intro msg u h1 h2
  have hr : SendMessageTool.normalizeReplyTo (some u) = u := by
    simp [SendMessageTool.normalizeReplyTo, h2]
  have hne : (u != "") = true := by simp [h1]
  have hgen : ∀ m : String,
      SendMessageTool.outgoingMessage m (some u)
        = if containsCI m ("@" ++ u) then m else ("@" ++ u) ++ " " ++ m := by
    intro m
    cases hc : containsCI m ("@" ++ u) <;>
      simp [SendMessageTool.outgoingMessage, hr, hne, hc]
  refine ⟨hgen msg, ?_⟩
  cases hc : containsCI msg ("@" ++ u) with
  | true => simp [hgen, hc]
  | false =>
    have hcont : containsCI (("@" ++ u) ++ " " ++ msg) ("@" ++ u) = true := by
      have h := containsCI_left ("@" ++ u) (" " ++ msg)
      rwa [← String.append_assoc] at h
    simp [hgen, hc, hcont]

/-- Witness for C8: hint alice on body `"hi"` — the injected body and its
idempotence at a concrete input. -/
theorem send_mention_injection_iff_app :
    (SendMessageTool.outgoingMessage "hi" (some "alice")
        = if containsCI "hi" ("@" ++ "alice") then "hi"
          else ("@" ++ "alice") ++ " " ++ "hi")
    ∧ SendMessageTool.outgoingMessage
          (SendMessageTool.outgoingMessage "hi" (some "alice")) (some "alice")
        = SendMessageTool.outgoingMessage "hi" (some "alice") :=
  send_mention_injection_iff "hi" "alice" (by decide) (by decide)

/-- C9 counterexample: a structured query built from a filter whose `user`
is absent carries `user = "carol"` (the environment calling-user identity)
in the POSTed body — the body does not leave `user` absent. -/
theorem query_user_default_cex :
    dictGet "user" (GetUnreadMessagesTool.queryPayload {} "carol")
      = some (JVal.str "carol")
    ∧ JVal.str "carol" ≠ JVal.null := by
  exact ⟨rfl, fun h => JVal.noConfusion h⟩

/-- C9 amended: the structured-query body forwards a truthy filter `user`
unchanged, and otherwise (absent or empty) sets `user` to the environment
calling-user identity — the POSTed filter body always carries a `user`
entry, absent only in the sense of the claim when the environment identity
itself is what is sent. -/
theorem query_user_resolution :
    ∀ (f : GetUnreadMessagesTool.MessageFilter) (envUser : String),
      dictGet "user" (GetUnreadMessagesTool.queryPayload f envUser)
        = some (if optStrTruthy f.user then GetUnreadMessagesTool.optStrJ f.user
                else JVal.str envUser) := by
  intro f envUser
  cases hu : optStrTruthy f.user <;>
    simp [GetUnreadMessagesTool.queryPayload, GetUnreadMessagesTool.resolveQueryFilters,
      GetUnreadMessagesTool.optStrJ, dictGet, hu]

end InternalChatMcp
